import Mathlib

/-!
Verification of the case-route bot (src/main.py) against its specification.

The Python source is embedded shallowly: every regular-expression step of
the parser is translated into an executable function over lists of
characters, the global channel cache becomes explicit state passing, and
the Slack API becomes an environment of capability outcomes.  Machine
behaviour that matters to the claims (Python regex word boundaries, the
dollar anchor, lazy quantifiers, the DOTALL flag) is reproduced exactly.
-/

/-- Python str.strip and the regex class backslash-s strip these ASCII
whitespace characters (src uses only default strip and backslash-s). -/
def isPyWs (c : Char) : Bool :=
  c = ' ' || c = '\t' || c = '\n' || c = '\r' || c = '\x0b' || c = '\x0c'

/-- Python str.strip on a character list: drop whitespace at both ends. -/
def pyStripChars (s : List Char) : List Char :=
  ((s.dropWhile isPyWs).reverse.dropWhile isPyWs).reverse

/-- Python str.strip on a string. -/
def pyStrip (s : String) : String := String.mk (pyStripChars s.data)

/-- Word characters of the Python regex backslash-b boundary, ASCII part:
letters, digits and underscore. -/
def isWordChar (c : Char) : Bool := c.isAlpha || c.isDigit || c = '_'

/-- Consume exactly n ASCII digits, returning the remaining characters
(models a regex group of n digit tokens; Python digits are modelled as
ASCII 0-9, the only digits the notification format carries). -/
def takeDigits : Nat → List Char → Option (List Char)
  | 0, s => some s
  | _ + 1, [] => none
  | n + 1, c :: rest => if c.isDigit then takeDigits n rest else none

/-- src/main.py line 106: re.match of an opening parenthesis, three
digits and a closing parenthesis, applied to the stripped text. -/
def startsWithPhone : List Char → Bool
  | '(' :: d1 :: d2 :: d3 :: ')' :: _ => d1.isDigit && d2.isDigit && d3.isDigit
  | _ => false

/-- The tail of the regex on src/main.py line 110 after the lazy group:
optional whitespace, a parenthesised 3-digit area code, optional
whitespace, three digits, a hyphen, four digits.  The greedy whitespace
runs are deterministic because the following literal is never itself
whitespace. -/
def phoneTail (s : List Char) : Bool :=
  match s.dropWhile isPyWs with
  | '(' :: r =>
    match takeDigits 3 r with
    | some (')' :: r2) =>
      match takeDigits 3 (r2.dropWhile isPyWs) with
      | some ('-' :: r4) => (takeDigits 4 r4).isSome
      | _ => false
    | _ => false
  | _ => false

/-- The lazy group of src/main.py line 110: the shortest nonempty prefix,
containing no newline (a dot without DOTALL), after which phoneTail
matches.  Returns the captured group, none when no such prefix exists. -/
def findContactGroup (acc : List Char) : List Char → Option (List Char)
  | [] => none
  | c :: rest =>
    if c = '\n' then none
    else if phoneTail rest then some (acc ++ [c])
    else findContactGroup (acc ++ [c]) rest

/-- Accumulating scanner for re.findall on src/main.py line 117, the
pattern being a word boundary, three to five digits, a word boundary.
pending is the digit run read so far, boundaryOk records whether the
character before the run was a non-word character or the start. -/
def scanCasesAux (boundaryOk : Bool) (pending : List Char) : List Char → List String
  | [] =>
    if boundaryOk && decide (3 ≤ pending.length) && decide (pending.length ≤ 5) then
      [String.mk pending]
    else []
  | c :: rest =>
    if c.isDigit then
      scanCasesAux boundaryOk (pending ++ [c]) rest
    else
      (if boundaryOk && decide (3 ≤ pending.length) && decide (pending.length ≤ 5)
          && !isWordChar c then
        [String.mk pending]
      else []) ++ scanCasesAux (!isWordChar c) [] rest

/-- src/main.py line 117: all word-delimited runs of three to five digits,
in order of appearance, duplicates kept. -/
def scanCases (cs : List Char) : List String := scanCasesAux true [] cs

/-- The capture of the body regex on src/main.py line 126 tried directly
after an arrow character: optional whitespace, the literal RJL, one or
more non-parenthesis characters, a closing parenthesis, optional
whitespace, then the captured rest (DOTALL, greedy). -/
def rjlCapture (s : List Char) : Option (List Char) :=
  match s.dropWhile isPyWs with
  | 'R' :: 'J' :: 'L' :: r =>
    if (r.takeWhile (fun c => c ≠ ')')).isEmpty then none
    else
      match r.dropWhile (fun c => c ≠ ')') with
      | ')' :: r3 => some (r3.dropWhile isPyWs)
      | _ => none
  | _ => none

/-- re.search of the body regex, src/main.py line 126: the leftmost arrow
character at which rjlCapture succeeds wins. -/
def bodySearch : List Char → Option (List Char)
  | [] => none
  | c :: rest =>
    if c = '→' then
      match rjlCapture rest with
      | some cap => some cap
      | none => bodySearch rest
    else bodySearch rest

/-- src/main.py lines 92-129, parse_quo_message.  Returns none for the
(None, [], None) unroutable outcome, otherwise the triple of contact
name, case numbers and message body. -/
def parse_quo_message (text : String) : Option (String × List String × String) :=
  let cs := text.data
  if startsWithPhone (pyStripChars cs) then none
  else
    match findContactGroup [] cs with
    | none => none
    | some g1 =>
      let contact_part := pyStripChars g1
      let case_numbers := scanCases contact_part
      if case_numbers.isEmpty then none
      else
        let nameRun := contact_part.takeWhile (fun c => c.isAlpha || isPyWs c)
        let contact_name :=
          if nameRun.isEmpty then "Unknown" else String.mk (pyStripChars nameRun)
        let message_body :=
          match bodySearch cs with
          | some cap => String.mk (pyStripChars cap)
          | none => text
        some (contact_name, case_numbers, message_body)

/-- A channel as the cache stores it: Slack id and name (the topic is
read through a separate API call, not from the cache). -/
structure Channel where
  id : String
  name : String
deriving DecidableEq

/-- One result of the paginated conversations_list call inside the
refresh loop of src/main.py lines 31-41: a page of channels together
with whether a next cursor was returned, or a raised SlackApiError. -/
inductive PageResult where
  | ok (channels : List Channel) (hasNext : Bool)
  | err
deriving DecidableEq

/-- Python dict insertion keyed by channel id, preserving insertion
order, overwriting in place on a repeated key (src/main.py line 38). -/
def dictInsert (cache : List Channel) (ch : Channel) : List Channel :=
  if cache.any (fun c => c.id == ch.id) then
    cache.map (fun c => if c.id == ch.id then ch else c)
  else cache ++ [ch]

/-- Insert one page of channels into the cache dict in order. -/
def insertAll (cache : List Channel) (chs : List Channel) : List Channel :=
  chs.foldl dictInsert cache

/-- The while loop of src/main.py lines 31-41: acc is the live global
channel_cache being filled; each page is written into it before the next
fetch.  An err page models a raised SlackApiError: the loop stops with
the partial accumulation and the Bool records the failure.  An exhausted
page supply is treated as a failed listing call. -/
def refreshLoop (acc : List Channel) : List PageResult → List Channel × Bool
  | [] => (acc, false)
  | PageResult.err :: _ => (acc, false)
  | PageResult.ok chs hasNext :: rest =>
    let acc2 := insertAll acc chs
    if hasNext then refreshLoop acc2 rest else (acc2, true)

/-- src/main.py lines 26-42, refresh_channel_cache.  The first statement
of the function clears the global cache, so oldCache is discarded before
any page arrives; the returned cache is what the global holds afterwards
and the Bool is false when a listing call raised partway. -/
def refresh_channel_cache (_oldCache : List Channel) (pages : List PageResult) :
    List Channel × Bool :=
  refreshLoop [] pages

/-- The compiled pattern of src/main.py line 134: re.search of a hyphen,
the case number and a dollar anchor.  The Python dollar anchor matches
at the end of the string or just before one final newline, so both
suffixes are accepted. -/
def nameMatchesCase (caseNumber name : String) : Bool :=
  ("-" ++ caseNumber).data.isSuffixOf name.data
    || (("-" ++ caseNumber).data ++ ['\n']).isSuffixOf name.data

/-- One scan over the cache dict in insertion order, first matching
channel wins (src/main.py lines 135-137 and 141-143). -/
def scanCache (cache : List Channel) (caseNumber : String) : Option Channel :=
  cache.find? (fun ch => nameMatchesCase caseNumber ch.name)

/-- The mutable process-wide state the bot threads through resolution:
the global channel_cache plus the pages each successive refresh call
will receive from the platform. -/
structure BotState where
  cache : List Channel
  refreshSupply : List (List PageResult)
deriving DecidableEq

/-- One refresh call made from find_case_channel: consumes the next page
supply, rebuilds the cache from scratch and reports success. -/
def doRefresh (s : BotState) : BotState × Bool :=
  let r := refresh_channel_cache s.cache (s.refreshSupply.headD [])
  ({ cache := r.1, refreshSupply := s.refreshSupply.tail }, r.2)

/-- Outcome of find_case_channel as seen by its caller: a channel, the
(None, None) miss, or a SlackApiError propagating out of the refresh. -/
inductive ResolveResult where
  | found (ch : Channel)
  | notFound
  | raised
deriving DecidableEq

/-- src/main.py lines 132-145, find_case_channel: scan the cache, on a
miss refresh once and rescan, on a second miss report absent.  A listing
failure inside the refresh escapes the function with the cache already
mutated. -/
def find_case_channel (s : BotState) (caseNumber : String) : ResolveResult × BotState :=
  match scanCache s.cache caseNumber with
  | some ch => (ResolveResult.found ch, s)
  | none =>
    let p := doRefresh s
    if p.2 then
      match scanCache p.1.cache caseNumber with
      | some ch => (ResolveResult.found ch, p.1)
      | none => (ResolveResult.notFound, p.1)
    else (ResolveResult.raised, p.1)

/-- Outcome of conversations_join for a channel (src/main.py lines
148-154); join_channel catches the error cases and only logs, so the
outcome never influences control flow. -/
inductive JoinOutcome where
  | success
  | alreadyMember
  | otherError
deriving DecidableEq

/-- Scanner state for re.findall of the mention pattern on src/main.py
line 162: an angle bracket, an at sign, the letter U, then one or more
uppercase letters or digits, then a closing angle bracket. -/
inductive MentionScanState where
  | idle
  | sawLt
  | sawLtAt
  | run (acc : List Char)

/-- Characters allowed inside a mention identifier after the U. -/
def isMentionChar (c : Char) : Bool := c.isUpper || c.isDigit

/-- Forward scanner equivalent to the findall: no later match can start
inside a partial match because none of its characters is an opening
angle bracket, so scanning each character once is faithful. -/
def scanMentionsAux (st : MentionScanState) : List Char → List String
  | [] => []
  | c :: rest =>
    match st with
    | MentionScanState.idle =>
      scanMentionsAux (if c = '<' then MentionScanState.sawLt else MentionScanState.idle) rest
    | MentionScanState.sawLt =>
      if c = '@' then scanMentionsAux MentionScanState.sawLtAt rest
      else
        scanMentionsAux (if c = '<' then MentionScanState.sawLt else MentionScanState.idle) rest
    | MentionScanState.sawLtAt =>
      if c = 'U' then scanMentionsAux (MentionScanState.run []) rest
      else
        scanMentionsAux (if c = '<' then MentionScanState.sawLt else MentionScanState.idle) rest
    | MentionScanState.run acc =>
      if isMentionChar c then scanMentionsAux (MentionScanState.run (acc ++ [c])) rest
      else if c = '>' && !acc.isEmpty then
        ("U" ++ String.mk acc) :: scanMentionsAux MentionScanState.idle rest
      else
        scanMentionsAux (if c = '<' then MentionScanState.sawLt else MentionScanState.idle) rest

/-- src/main.py line 162: every mention token in the topic, in order. -/
def scanMentions (cs : List Char) : List String := scanMentionsAux MentionScanState.idle cs

/-- The external capability outcomes the orchestrator consumes: join
outcome per channel, topic text per channel (none models a raised
SlackApiError on conversations_info), post success per channel and
text.  All three are caught at their call sites and only logged. -/
structure Env where
  joinOutcome : String → JoinOutcome
  topicResult : String → Option String
  postOk : String → String → Bool

/-- src/main.py lines 157-166, get_tagged_users_from_topic: on a raised
retrieval error return the empty list, otherwise findall the mention
pattern over the topic text. -/
def get_tagged_users_from_topic (env : Env) (channelId : String) : List String :=
  match env.topicResult channelId with
  | none => []
  | some t => scanMentions t.data

/-- src/main.py line 243: the space-joined rendered mention tokens. -/
def mentionsString (env : Env) (channelId : String) : String :=
  String.intercalate " " ((get_tagged_users_from_topic env channelId).map
    (fun u => "<@" ++ u ++ ">"))

/-- src/main.py lines 246-248: the forwarded message, with the mention
block appended only when nonempty. -/
def composeMessage (contact caseNumber body mentions : String) : String :=
  let m := "📱 *" ++ contact ++ "* (Case " ++ caseNumber ++ "):\n\n" ++ body
  if mentions ≠ "" then m ++ "\n\n" ++ mentions else m

/-- A capability call the orchestrator makes against the platform while
processing one notification, in order. -/
inductive CapCall where
  | join (channelId : String)
  | topicInfo (channelId : String)
  | post (channelId : String) (text : String)
deriving DecidableEq

/-- Whether a capability call is a post attempt. -/
def isPostCall : CapCall → Bool
  | CapCall.post _ _ => true
  | _ => false

/-- Number of post attempts in a capability trace. -/
def countPosts (tr : List CapCall) : Nat := tr.countP isPostCall

/-- The per-case loop of src/main.py lines 229-258.  Returns the
capability calls made in order, the final state, and false when a
SlackApiError escaped (which only the refresh inside find_case_channel
can cause: join, topic read and post are each caught at their call
site, so their outcomes affect logging only). -/
def processCases (env : Env) (ct bd : String) :
    BotState → List String → List CapCall × BotState × Bool
  | s, [] => ([], s, true)
  | s, c :: rest =>
    match find_case_channel s c with
    | (ResolveResult.raised, s2) => ([], s2, false)
    | (ResolveResult.notFound, s2) => processCases env ct bd s2 rest
    | (ResolveResult.found ch, s2) =>
      let r := processCases env ct bd s2 rest
      (CapCall.join ch.id :: CapCall.topicInfo ch.id ::
        CapCall.post ch.id (composeMessage ct c bd (mentionsString env ch.id)) :: r.1,
        r.2.1, r.2.2)

/-- An attachment-like sub-object of the payload; each field access in
the source is a dict get defaulting to absence. -/
structure Attachment where
  text : Option String
  fallback : Option String
  pretext : Option String
deriving DecidableEq

/-- A nested inline element of a rich-text block: its type tag and its
optional text value. -/
structure InlineElem where
  ty : String
  txt : Option String
deriving DecidableEq

/-- A content block: a rich-text kind with its nested inline-element
sequences, a section kind with the text field of its text object, or
any other kind (skipped by the source). -/
inductive Block where
  | richText (elements : List (List InlineElem))
  | section (sectionText : Option String)
  | other
deriving DecidableEq

/-- Python truthiness of an optional string: present and nonempty. -/
def truthy : Option String → Bool
  | some s => s ≠ ""
  | none => false

/-- src/main.py lines 67-74: first attachment whose text, else fallback,
else pretext field is truthy wins. -/
def findAttachmentText : List Attachment → Option String
  | [] => none
  | a :: rest =>
    if truthy a.text then some (a.text.getD "")
    else if truthy a.fallback then some (a.fallback.getD "")
    else if truthy a.pretext then some (a.pretext.getD "")
    else findAttachmentText rest

/-- src/main.py lines 80-83: inside a rich-text block, the first sub
element whose type tag is text returns its text value with an empty
default, unconditionally, even when that value is absent or empty. -/
def findSubText : List InlineElem → Option String
  | [] => none
  | e :: rest => if e.ty = "text" then some (e.txt.getD "") else findSubText rest

/-- Walk the outer element sequences of a rich-text block in order. -/
def findInlineText : List (List InlineElem) → Option String
  | [] => none
  | elems :: restOuter =>
    match findSubText elems with
    | some s => some s
    | none => findInlineText restOuter

/-- src/main.py lines 77-87: blocks in order; a rich-text block returns
its first text-typed sub element unconditionally (source line 83), a
section block returns its text field only when truthy. -/
def findBlockText : List Block → Option String
  | [] => none
  | Block.richText elems :: rest =>
    match findInlineText elems with
    | some s => some s
    | none => findBlockText rest
  | Block.section st :: rest =>
    if truthy st then some (st.getD "") else findBlockText rest
  | Block.other :: rest => findBlockText rest

/-- A raw Slack message as the polling adapter delivers it.  The subtype
field is carried by the payload but never consulted anywhere in
src/main.py; text models the primary text field with the empty-string
dict default of line 62 folded in. -/
structure SlackMessage where
  subtype : Option String
  user : Option String
  ts : String
  text : String
  attachments : List Attachment
  blocks : List Block
deriving DecidableEq

/-- src/main.py lines 56-89, get_message_text: primary text field if
truthy, else the attachments, else the blocks, else the empty string. -/
def get_message_text (m : SlackMessage) : String :=
  if m.text ≠ "" then m.text
  else
    match findAttachmentText m.attachments with
    | some t => t
    | none =>
      match findBlockText m.blocks with
      | some t => t
      | none => ""

/-- src/main.py lines 201-258, process_message: extract the text, drop
the message when extraction is empty or the parse is unroutable,
otherwise run the per-case loop.  Returns the capability calls, the
final cache state and whether no SlackApiError escaped. -/
def process_message (env : Env) (s : BotState) (m : SlackMessage) :
    List CapCall × BotState × Bool :=
  let text := get_message_text m
  if text = "" then ([], s, true)
  else
    match parse_quo_message text with
    | none => ([], s, true)
    | some (contact_name, case_numbers, message_body) =>
      processCases env contact_name message_body s case_numbers

/-- The for loop over one fetched batch inside the main loop of
src/main.py lines 283-284: an exception escaping process_message aborts
the remaining messages of the batch (it is then caught by the except of
line 285, so the worker itself survives to the next poll tick). -/
def runBatch (env : Env) : BotState → List SlackMessage → List CapCall × BotState × Bool
  | s, [] => ([], s, true)
  | s, m :: rest =>
    let r := process_message env s m
    if r.2.2 then
      let r2 := runBatch env r.2.1 rest
      (r.1 ++ r2.1, r2.2.1, r2.2.2)
    else (r.1, r.2.1, false)

/-- Derived helper: no suffix of the character list satisfies phoneTail,
so the phone-number pattern occurs nowhere in the text. -/
def noPhoneB : List Char → Bool
  | [] => true
  | c :: rest => !phoneTail (c :: rest) && noPhoneB rest

/-- A concrete capability environment for witness evaluations: joins
succeed, every topic read raises (hence no mentions), posts succeed. -/
def env0 : Env :=
  { joinOutcome := fun _ => JoinOutcome.success,
    topicResult := fun _ => none,
    postOk := fun _ _ => true }

/-- A concrete unroutable notification: bare phone number, no contact. -/
def msgUnroutable : SlackMessage :=
  { subtype := none, user := some "U1", ts := "1.0",
    text := "(512) 964-4192 → RJL Main Line (512) 537-3369 Missed call",
    attachments := [], blocks := [] }

/-- A concrete routable notification carrying a non-content subtype. -/
def msgChannelJoin : SlackMessage :=
  { subtype := some "channel_join", user := some "U1", ts := "2.0",
    text := "Ann 777 (512) 555-1234 hi", attachments := [], blocks := [] }

theorem noPhoneB_findContactGroup (cs : List Char) :
    ∀ acc, noPhoneB cs = true → findContactGroup acc cs = none := by
  induction cs with
  | nil => intro acc _; rfl
  | cons c rest ih =>
    intro acc h
    simp only [noPhoneB, Bool.and_eq_true, Bool.not_eq_true'] at h
    have hrest : phoneTail rest = false := by
      cases rest with
      | nil => rfl
      | cons d ds =>
        have h2 := h.2
        simp only [noPhoneB, Bool.and_eq_true, Bool.not_eq_true'] at h2
        exact h2.1
    have hihyp : noPhoneB rest = true := h.2
    simp only [findContactGroup, hrest]
    by_cases hc : c = '\n'
    · simp [hc]
    · simp [hc, ih _ hihyp]

theorem findContactGroup_no_newline (cs : List Char) :
    ∀ acc g, '\n' ∉ acc → findContactGroup acc cs = some g → '\n' ∉ g := by
  induction cs with
  | nil => intro acc g _ h; simp [findContactGroup] at h
  | cons c rest ih =>
    intro acc g hacc h
    simp only [findContactGroup] at h
    by_cases hc : c = '\n'
    · simp [hc] at h
    · rw [if_neg hc] at h
      by_cases hp : phoneTail rest
      · rw [if_pos (by simp [hp])] at h
        have hg : acc ++ [c] = g := by injection h
        intro hmem
        rw [← hg] at hmem
        rcases List.mem_append.mp hmem with h1 | h1
        · exact hacc h1
        · simp only [List.mem_singleton] at h1
          exact hc h1.symm
      · rw [if_neg (by simp [hp])] at h
        refine ih (acc ++ [c]) g ?_ h
        intro hmem
        rcases List.mem_append.mp hmem with h1 | h1
        · exact hacc h1
        · simp only [List.mem_singleton] at h1
          exact hc h1.symm

theorem scanCasesAux_mem (cs : List Char) :
    ∀ b pending s, pending.all Char.isDigit = true → s ∈ scanCasesAux b pending cs →
      3 ≤ s.length ∧ s.length ≤ 5 ∧ s.data.all Char.isDigit = true := by
  induction cs with
  | nil =>
    intro b pending s hp h
    simp only [scanCasesAux] at h
    split at h
    · rename_i hcond
      simp only [List.mem_singleton] at h
      subst h
      simp only [Bool.and_eq_true, decide_eq_true_eq] at hcond
      exact ⟨hcond.1.2, hcond.2, hp⟩
    · simp at h
  | cons c rest ih =>
    intro b pending s hp h
    simp only [scanCasesAux] at h
    by_cases hd : c.isDigit
    · rw [if_pos hd] at h
      refine ih b (pending ++ [c]) s ?_ h
      simp [List.all_append, hp, hd]
    · rw [if_neg hd] at h
      rcases List.mem_append.mp h with h1 | h1
      · split at h1
        · rename_i hcond
          simp only [List.mem_singleton] at h1
          subst h1
          simp only [Bool.and_eq_true, decide_eq_true_eq] at hcond
          exact ⟨hcond.1.1.2, hcond.1.2, hp⟩
        · simp at h1
      · exact ih _ [] s rfl h1

theorem processCases_posts_le (env : Env) (ct bd : String) (ids : List String) :
    ∀ s, countPosts (processCases env ct bd s ids).1 ≤ ids.length := by
  induction ids with
  | nil => intro s; simp [processCases, countPosts]
  | cons c rest ih =>
    intro s
    simp only [processCases]
    rcases h : find_case_channel s c with ⟨r, s2⟩
    cases r with
    | raised => simp [countPosts]
    | notFound => exact Nat.le_succ_of_le (ih s2)
    | found ch =>
      have := ih s2
      simp [countPosts, List.countP_cons, isPostCall, List.length_cons] at *
      omega

theorem processCases_outcome_indep (j j1 : String → JoinOutcome)
    (t : String → Option String) (p p1 : String → String → Bool)
    (ct bd : String) (ids : List String) :
    ∀ s, processCases { joinOutcome := j, topicResult := t, postOk := p } ct bd s ids
      = processCases { joinOutcome := j1, topicResult := t, postOk := p1 } ct bd s ids := by
  induction ids with
  | nil => intro s; rfl
  | cons c rest ih =>
    intro s
    simp only [processCases]
    rcases h : find_case_channel s c with ⟨r, s2⟩
    cases r with
    | raised => rfl
    | notFound => exact ih s2
    | found ch => simp [ih s2, mentionsString, get_tagged_users_from_topic]

theorem parse_some_ids_ne_nil (text ct : String) (ids : List String) (bd : String)
    (h : parse_quo_message text = some (ct, ids, bd)) : ids ≠ [] := by
  simp only [parse_quo_message] at h
  split at h
  · exact absurd h (by simp)
  · split at h
    · exact absurd h (by simp)
    · rename_i g1 hg
      split at h
      · exact absurd h (by simp)
      · rename_i hne
        have hids : scanCases (pyStripChars g1) = ids := by
          have := (Option.some.inj h)
          exact congrArg (fun x => x.2.1) this
        rw [← hids]
        simpa using hne

/-- C1: evaluation of the code at the failing input of the claim.  The
body regex of src/main.py line 126 consumes only up to the first closing
parenthesis after the literal RJL, which is the end of the 3-digit area
code, so the returned body keeps the trailing 500-5266 of the
routing-marker phone number instead of starting at Hi Laura. -/
theorem c1_body_keeps_phone_tail :
    parse_quo_message
      "Phil Garret 1425 (512) 694-5181 → RJL Outbound (512) 500-5266 Hi Laura, this is a test."
      = some ("Phil Garret", ["1425"], "500-5266 Hi Laura, this is a test.") := by decide

/-- C2 counterexample: the header Ann x1234 contains the maximal 3-5
digit run 1234 directly adjacent to a letter, so the claim predicts case
ids beginning with 1234; the word boundary in the findall pattern of
src/main.py line 117 rejects it and parse returns the unroutable
outcome. -/
theorem c2_counterexample_letter_adjacent_run :
    findContactGroup [] "Ann x1234 (512) 555-1234 hi".data = some "Ann x1234".data
    ∧ parse_quo_message "Ann x1234 (512) 555-1234 hi" = none := by decide

/-- C2 amended: within the header, the case identifiers are the maximal
3-5 digit runs that are word-delimited on both sides, so runs directly
adjacent to letters, underscores or further digits are ignored; order of
appearance is preserved, duplicates are kept, and a parse success always
carries at least one identifier. -/
theorem c2_case_ids_word_delimited :
    parse_quo_message
        "Lourdes Galeas 940 & 1206 (504) 723-7482 → RJL Main Line (512) 537-3369 Esos me los dio."
      = some ("Lourdes Galeas", ["940", "1206"], "537-3369 Esos me los dio.")
    ∧ (∀ text ct ids bd, parse_quo_message text = some (ct, ids, bd) → ids ≠ [])
    ∧ (∀ cs s, s ∈ scanCases cs →
        3 ≤ s.length ∧ s.length ≤ 5 ∧ s.data.all Char.isDigit = true)
    ∧ scanCases "Ann x1234".data = []
    ∧ scanCases "Ann_123 ok".data = []
    ∧ scanCases "Ann 1234".data = ["1234"] := by
  refine ⟨by decide, parse_some_ids_ne_nil, ?_, by decide, by decide, by decide⟩
  intro cs s h
  exact scanCasesAux_mem cs true [] s rfl h

theorem c2_case_ids_word_delimited_witness :
    parse_quo_message "Kim 999 (512) 555-0000 ok"
      = some ("Kim", ["999"], "Kim 999 (512) 555-0000 ok")
    ∧ (["999"] : List String) ≠ []
    ∧ ("999" : String) ∈ scanCases "Kim 999".data
    ∧ (3 ≤ ("999" : String).length ∧ ("999" : String).length ≤ 5
        ∧ ("999" : String).data.all Char.isDigit = true) :=
  ⟨by decide,
    c2_case_ids_word_delimited.2.1 "Kim 999 (512) 555-0000 ok" "Kim" ["999"]
      "Kim 999 (512) 555-0000 ok" (by decide),
    by decide,
    c2_case_ids_word_delimited.2.2.1 "Kim 999".data "999" (by decide)⟩

/-- C3 counterexample: in the two-line text the first phone-number
pattern occurs on the second line, so the claim says the header is
Ann newline Bob 123 and the parse succeeds with case id 123; the dot of
the lazy prefix on src/main.py line 110 cannot cross the newline and the
code returns the unroutable outcome, while the identical text with the
newline replaced by a space parses.  This also refutes the exactly-when
reading: this text is neither headerless nor phone-less. -/
theorem c3_counterexample_multiline_header :
    parse_quo_message "Ann\nBob 123 (512) 555-1234 hi" = none
    ∧ parse_quo_message "Ann Bob 123 (512) 555-1234 hi"
      = some ("Ann Bob", ["123"], "Ann Bob 123 (512) 555-1234 hi") := by decide

/-- C3 amended: parse returns the unroutable outcome whenever the
stripped text starts with a parenthesised 3-digit area code (regardless
of what follows), and whenever the phone-number pattern occurs nowhere
in the text; moreover a captured header never contains a newline: the
first phone-number occurrence must be separated from a newline-free
nonempty prefix by whitespace only, otherwise the parse is unroutable
even though the pattern occurs later in the text. -/
theorem c3_unroutable_conditions :
    (∀ text : String, startsWithPhone (pyStripChars text.data) = true →
        parse_quo_message text = none)
    ∧ (∀ text : String, noPhoneB text.data = true → parse_quo_message text = none)
    ∧ (∀ (text : String) (g : List Char),
        findContactGroup [] text.data = some g → '\n' ∉ g) := by
  refine ⟨?_, ?_, ?_⟩
  · intro text h
    simp [parse_quo_message, h]
  · intro text h
    simp only [parse_quo_message, noPhoneB_findContactGroup text.data [] h]
    split <;> rfl
  · intro text g h
    exact findContactGroup_no_newline text.data [] g (by simp) h

theorem c3_unroutable_conditions_witness :
    startsWithPhone
      (pyStripChars "(512) 964-4192 → RJL Main Line (512) 537-3369 Missed call".data) = true
    ∧ parse_quo_message "(512) 964-4192 → RJL Main Line (512) 537-3369 Missed call" = none
    ∧ noPhoneB "Acme Corp called earlier".data = true
    ∧ parse_quo_message "Acme Corp called earlier" = none :=
  ⟨by decide,
    c3_unroutable_conditions.1 "(512) 964-4192 → RJL Main Line (512) 537-3369 Missed call"
      (by decide),
    by decide,
    c3_unroutable_conditions.2.1 "Acme Corp called earlier" (by decide)⟩

/-- C4 counterexample: the dollar anchor of the compiled pattern on
src/main.py line 134 also matches just before one final newline, so a
cached channel named case-smith-1425 followed by a newline is returned
for case id 1425 although its name does not end with exactly the
hyphen-delimited suffix: a further character follows it. -/
theorem c4_counterexample_trailing_newline :
    find_case_channel
        { cache := [{ id := "C1", name := "case-smith-1425\n" }], refreshSupply := [] } "1425"
      = (ResolveResult.found { id := "C1", name := "case-smith-1425\n" },
         { cache := [{ id := "C1", name := "case-smith-1425\n" }], refreshSupply := [] })
    ∧ "-1425".data.isSuffixOf "case-smith-1425\n".data = false := by decide

/-- C4 amended: resolve returns a channel only when its name ends with
the hyphen-delimited case id either at the very end or just before one
final newline (the Python dollar anchor); partial-digit suffixes never
match; a cache hit performs no refresh; on a miss exactly one page
supply is consumed by exactly one refresh, and when the rescan after a
successful refresh also misses, the result is absent. -/
theorem c4_resolver_suffix_and_single_refresh :
    (∀ s c ch s2, find_case_channel s c = (ResolveResult.found ch, s2) →
        nameMatchesCase c ch.name = true)
    ∧ (nameMatchesCase "1425" "case-smith-1425" = true
        ∧ nameMatchesCase "1425" "case-smith-14250" = false)
    ∧ (∀ s c ch, scanCache s.cache c = some ch →
        find_case_channel s c = (ResolveResult.found ch, s))
    ∧ (∀ s c, scanCache s.cache c = none →
        (find_case_channel s c).2.refreshSupply = s.refreshSupply.tail)
    ∧ (∀ s c, scanCache s.cache c = none → (doRefresh s).2 = true →
        scanCache (doRefresh s).1.cache c = none →
        find_case_channel s c = (ResolveResult.notFound, (doRefresh s).1)) := by
  refine ⟨?_, ⟨by decide, by decide⟩, ?_, ?_, ?_⟩
  · intro s c ch s2 h
    simp only [find_case_channel] at h
    cases h0 : scanCache s.cache c with
    | some ch1 =>
      rw [h0] at h
      simp only [Prod.mk.injEq, ResolveResult.found.injEq] at h
      rw [← h.1]
      unfold scanCache at h0
      simpa using List.find?_some h0
    | none =>
      rw [h0] at h
      by_cases hr : (doRefresh s).2
      · rw [if_pos hr] at h
        cases h1 : scanCache (doRefresh s).1.cache c with
        | some ch1 =>
          rw [h1] at h
          simp only [Prod.mk.injEq, ResolveResult.found.injEq] at h
          rw [← h.1]
          unfold scanCache at h1
          simpa using List.find?_some h1
        | none =>
          rw [h1] at h
          simp at h
      · rw [if_neg hr] at h
        simp at h
  · intro s c ch h
    simp [find_case_channel, h]
  · intro s c h
    simp only [find_case_channel, h]
    by_cases hr : (doRefresh s).2
    · rw [if_pos hr]
      cases h1 : scanCache (doRefresh s).1.cache c with
      | some ch1 => simp [h1, doRefresh]
      | none => simp [h1, doRefresh]
    · rw [if_neg hr]
      simp [doRefresh]
  · intro s c h1 h2 h3
    simp [find_case_channel, h1, h2, h3]

theorem c4_resolver_suffix_and_single_refresh_witness :
    scanCache [{ id := "C100", name := "case-smith-1425" }] "1425"
      = some { id := "C100", name := "case-smith-1425" }
    ∧ find_case_channel
        { cache := [{ id := "C100", name := "case-smith-1425" }], refreshSupply := [] } "1425"
      = (ResolveResult.found { id := "C100", name := "case-smith-1425" },
         { cache := [{ id := "C100", name := "case-smith-1425" }], refreshSupply := [] }) :=
  ⟨by decide,
    c4_resolver_suffix_and_single_refresh.2.2.1
      { cache := [{ id := "C100", name := "case-smith-1425" }], refreshSupply := [] }
      "1425" { id := "C100", name := "case-smith-1425" } (by decide)⟩

/-- C5 counterexample: a refresh whose first page succeeds with a next
cursor and whose second page raises leaves the cache holding exactly the
first page, not the previous content, so a failed refresh is observable
as a partial accumulation and the previous directory content is lost. -/
theorem c5_counterexample_partial_refresh :
    refresh_channel_cache [{ id := "A", name := "case-old-100" }]
        [PageResult.ok [{ id := "B", name := "case-new-200" }] true, PageResult.err]
      = ([{ id := "B", name := "case-new-200" }], false)
    ∧ ([{ id := "B", name := "case-new-200" }] : List Channel)
        ≠ [{ id := "A", name := "case-old-100" }] := by decide

/-- C5 amended: refresh clears the cache before the first page arrives
and accumulates each page directly into the live cache, so the previous
content is never observable afterwards whether or not the refresh
succeeds; on a listing failure partway the cache holds exactly the
pages already fetched, and a completed listing replaces the content
wholesale. -/
theorem c5_refresh_discards_and_accumulates :
    (∀ old1 old2 pages, refresh_channel_cache old1 pages = refresh_channel_cache old2 pages)
    ∧ (∀ acc rest, refreshLoop acc (PageResult.err :: rest) = (acc, false))
    ∧ (∀ old chs rest,
        refresh_channel_cache old (PageResult.ok chs true :: PageResult.err :: rest)
          = (insertAll [] chs, false))
    ∧ (∀ old chs rest, refresh_channel_cache old (PageResult.ok chs false :: rest)
        = (insertAll [] chs, true)) :=
  ⟨fun _ _ _ => rfl, fun _ _ => rfl, fun _ _ _ => rfl, fun _ _ _ => rfl⟩

/-- C6 counterexample: the cache misses case id 100, the refresh raises,
and the per-case loop of src/main.py lines 229-258 has no handler, so
the exception escapes process_message with no post attempts at all and
the remaining case id 200 abandoned, although 200 was resolvable in the
very cache the loop started from. -/
theorem c6_counterexample_refresh_error_aborts :
    processCases env0 "Ann" "hi"
        { cache := [{ id := "CH200", name := "case-b-200" }],
          refreshSupply := [[PageResult.err]] }
        ["100", "200"]
      = ([], { cache := [], refreshSupply := [] }, false)
    ∧ scanCache [{ id := "CH200", name := "case-b-200" }] "200"
      = some { id := "CH200", name := "case-b-200" } := by decide

/-- C6 amended: a listing failure during the refresh that resolve
triggers propagates out of find_case_channel and out of the whole
per-notification processing, abandoning the remaining case ids of that
notification; the exception then aborts the remaining messages of the
fetched batch, where the catch-all of the main loop stops it, so the
worker survives to the next poll tick. -/
theorem c6_refresh_error_propagates :
    (∀ env ct bd s c rest s2, find_case_channel s c = (ResolveResult.raised, s2) →
        processCases env ct bd s (c :: rest) = ([], s2, false))
    ∧ (∀ env s m rest, (process_message env s m).2.2 = false →
        runBatch env s (m :: rest)
          = ((process_message env s m).1, (process_message env s m).2.1, false)) := by
  constructor
  · intro env ct bd s c rest s2 h
    simp [processCases, h]
  · intro env s m rest h
    simp [runBatch, h]

theorem c6_refresh_error_propagates_witness :
    find_case_channel { cache := [], refreshSupply := [[PageResult.err]] } "100"
      = (ResolveResult.raised, { cache := [], refreshSupply := [] })
    ∧ processCases env0 "Ann" "hi"
        { cache := [], refreshSupply := [[PageResult.err]] } ["100", "200"]
      = ([], { cache := [], refreshSupply := [] }, false) :=
  ⟨by decide,
    c6_refresh_error_propagates.1 env0 "Ann" "hi"
      { cache := [], refreshSupply := [[PageResult.err]] } "100" ["200"]
      { cache := [], refreshSupply := [] } (by decide)⟩

/-- C7: per-notification isolation of post attempts.  At most one post
attempt per parsed case id; a resolution miss only skips that id and
continues with the state the miss left behind; the join and post
outcomes (each caught at its call site in src/main.py lines 150-154 and
251-258) influence neither the capability trace nor the remaining ids;
a resolved id contributes exactly its join, topic-read and post calls
in order before the calls of the remaining ids; and an unroutable
notification produces no capability call at all and leaves the state
untouched. -/
theorem c7_post_attempts_isolated :
    (∀ env ct bd s ids, countPosts (processCases env ct bd s ids).1 ≤ ids.length)
    ∧ (∀ env ct bd s c rest s2, find_case_channel s c = (ResolveResult.notFound, s2) →
        processCases env ct bd s (c :: rest) = processCases env ct bd s2 rest)
    ∧ (∀ j j1 t p p1 ct bd s ids,
        processCases { joinOutcome := j, topicResult := t, postOk := p } ct bd s ids
          = processCases { joinOutcome := j1, topicResult := t, postOk := p1 } ct bd s ids)
    ∧ (∀ env ct bd s c rest ch s2, find_case_channel s c = (ResolveResult.found ch, s2) →
        (processCases env ct bd s (c :: rest)).1
          = CapCall.join ch.id :: CapCall.topicInfo ch.id ::
            CapCall.post ch.id (composeMessage ct c bd (mentionsString env ch.id)) ::
            (processCases env ct bd s2 rest).1)
    ∧ (∀ env s m, parse_quo_message (get_message_text m) = none →
        process_message env s m = ([], s, true)) := by
  refine ⟨?_, ?_, ?_, ?_, ?_⟩
  · intro env ct bd s ids
    exact processCases_posts_le env ct bd ids s
  · intro env ct bd s c rest s2 h
    simp [processCases, h]
  · intro j j1 t p p1 ct bd s ids
    exact processCases_outcome_indep j j1 t p p1 ct bd ids s
  · intro env ct bd s c rest ch s2 h
    simp [processCases, h]
  · intro env s m h
    by_cases ht : get_message_text m = ""
    · simp [process_message, ht]
    · simp [process_message, ht, h]

theorem c7_post_attempts_isolated_witness :
    parse_quo_message (get_message_text msgUnroutable) = none
    ∧ process_message env0 { cache := [], refreshSupply := [] } msgUnroutable
      = ([], { cache := [], refreshSupply := [] }, true)
    ∧ countPosts (processCases env0 "Ann" "hi"
        { cache := [], refreshSupply := [] } ["111", "222"]).1 ≤ 2 :=
  ⟨by decide,
    c7_post_attempts_isolated.2.2.2.2 env0 { cache := [], refreshSupply := [] }
      msgUnroutable (by decide),
    c7_post_attempts_isolated.1 env0 "Ann" "hi"
      { cache := [], refreshSupply := [] } ["111", "222"]⟩

/-- C8 counterexample: a message whose subtype is channel_join but whose
text is routable is fully extracted, parsed, resolved and posted by
process_message, which never consults the subtype, so no filter step
discards non-content kinds before extraction. -/
theorem c8_counterexample_subtype_not_filtered :
    msgChannelJoin.subtype = some "channel_join"
    ∧ process_message env0
        { cache := [{ id := "CH777", name := "case-ann-777" }], refreshSupply := [] }
        msgChannelJoin
      = ([CapCall.join "CH777", CapCall.topicInfo "CH777",
          CapCall.post "CH777" "📱 *Ann* (Case 777):\n\nAnn 777 (512) 555-1234 hi"],
         { cache := [{ id := "CH777", name := "case-ann-777" }], refreshSupply := [] },
         true) := by decide

/-- C8 amended: the polling pipeline restricts to the source channel
only implicitly, by fetching the history of that channel; it applies no
subtype filter at all, and the outcome of process_message is entirely
independent of the subtype carried by the message, so edits, deletions
and channel-join notices proceed to extraction and parsing like any
other message. -/
theorem c8_no_subtype_filter :
    ∀ (env : Env) (s : BotState) (m : SlackMessage) (st1 st2 : Option String),
      process_message env s { m with subtype := st1 }
        = process_message env s { m with subtype := st2 } := by
  intro env s m st1 st2
  cases m
  rfl

/-- C9 counterexample: with an empty primary text and no attachments, a
rich-text block whose first plain-text inline element carries no text
value makes get_message_text return the empty string at once (src line
83), although the next block is a section carrying hello; removing the
rich-text block yields hello, so extraction does not return the first
nonempty result across sources. -/
theorem c9_counterexample_empty_rich_text :
    get_message_text
      { subtype := none, user := none, ts := "3.0", text := "",
        attachments := [],
        blocks := [Block.richText [[{ ty := "text", txt := none }]],
          Block.section (some "hello")] } = ""
    ∧ get_message_text
      { subtype := none, user := none, ts := "3.0", text := "",
        attachments := [], blocks := [Block.section (some "hello")] } = "hello" := by decide

/-- C9 amended: extraction consults the primary text, then the
attachments (text, else fallback, else pretext per attachment, first
truthy wins), then the blocks, in that precedence; but inside the block
walk a rich-text block returns the text value of its first plain-text
inline element unconditionally, defaulting to the empty string, which
terminates the search even when the value is empty or absent; a fully
falsy attachment is skipped. -/
theorem c9_extraction_precedence :
    (∀ m, m.text ≠ "" → get_message_text m = m.text)
    ∧ (∀ m t, m.text = "" → findAttachmentText m.attachments = some t →
        get_message_text m = t)
    ∧ (∀ m, m.text = "" → findAttachmentText m.attachments = none →
        get_message_text m = (findBlockText m.blocks).getD "")
    ∧ (∀ a rest, truthy a.text = false → truthy a.fallback = false →
        truthy a.pretext = false →
        findAttachmentText (a :: rest) = findAttachmentText rest)
    ∧ (∀ e es outer rest, e.ty = "text" →
        findBlockText (Block.richText ((e :: es) :: outer) :: rest)
          = some (e.txt.getD "")) := by
  refine ⟨?_, ?_, ?_, ?_, ?_⟩
  · intro m h
    simp [get_message_text, h]
  · intro m t h ha
    simp [get_message_text, h, ha]
  · intro m h ha
    cases hb : findBlockText m.blocks with
    | some t => simp [get_message_text, h, ha, hb]
    | none => simp [get_message_text, h, ha, hb]
  · intro a rest h1 h2 h3
    simp [findAttachmentText, h1, h2, h3]
  · intro e es outer rest h
    simp [findBlockText, findInlineText, findSubText, h]

theorem c9_extraction_precedence_witness :
    ({ subtype := none, user := none, ts := "4.0", text := "hi",
        attachments := [], blocks := [] } : SlackMessage).text ≠ ""
    ∧ get_message_text
        { subtype := none, user := none, ts := "4.0", text := "hi",
          attachments := [], blocks := [] } = "hi"
    ∧ findBlockText
        [Block.richText [[{ ty := "text", txt := some "inline" }]], Block.other]
      = some "inline" :=
  ⟨by decide,
    c9_extraction_precedence.1
      { subtype := none, user := none, ts := "4.0", text := "hi",
        attachments := [], blocks := [] } (by decide),
    c9_extraction_precedence.2.2.2.2 { ty := "text", txt := some "inline" } [] []
      [Block.other] (by decide)⟩

/-- C10: duplicate case ids are preserved by the parser, one entry per
occurrence in the header, and the per-case loop runs the full join,
topic-read and post sequence once per occurrence: when the id hits the
cache, the same channel resolves both times and the identical composed
message is posted to it twice. -/
theorem c10_duplicate_case_ids_reposted :
    parse_quo_message "Ann 512 & 512 (504) 723-7482 → RJL Main Line (512) 537-3369 hola"
      = some ("Ann", ["512", "512"], "537-3369 hola")
    ∧ (∀ env ct bd s c rest ch, scanCache s.cache c = some ch →
        (processCases env ct bd s (c :: c :: rest)).1
          = CapCall.join ch.id :: CapCall.topicInfo ch.id ::
            CapCall.post ch.id (composeMessage ct c bd (mentionsString env ch.id)) ::
            CapCall.join ch.id :: CapCall.topicInfo ch.id ::
            CapCall.post ch.id (composeMessage ct c bd (mentionsString env ch.id)) ::
            (processCases env ct bd s rest).1) := by
  constructor
  · decide
  · intro env ct bd s c rest ch h
    have hf : find_case_channel s c = (ResolveResult.found ch, s) := by
      simp [find_case_channel, h]
    simp [processCases, hf]

theorem c10_duplicate_case_ids_reposted_witness :
    scanCache [{ id := "CH512", name := "case-a-512" }] "512"
      = some { id := "CH512", name := "case-a-512" }
    ∧ (processCases env0 "Ann" "hola"
        { cache := [{ id := "CH512", name := "case-a-512" }], refreshSupply := [] }
        ["512", "512"]).1
      = [CapCall.join "CH512", CapCall.topicInfo "CH512",
         CapCall.post "CH512"
           (composeMessage "Ann" "512" "hola" (mentionsString env0 "CH512")),
         CapCall.join "CH512", CapCall.topicInfo "CH512",
         CapCall.post "CH512"
           (composeMessage "Ann" "512" "hola" (mentionsString env0 "CH512"))] :=
  ⟨by decide, by
    have h := c10_duplicate_case_ids_reposted.2 env0 "Ann" "hola"
      { cache := [{ id := "CH512", name := "case-a-512" }], refreshSupply := [] }
      "512" [] { id := "CH512", name := "case-a-512" } (by decide)
    simpa using h⟩
